import Mathlib

/-!
Verification of the frictionless project layer (src/frictionless/project/project.py)
against its specification. The Project orchestration code is embedded directly from
the source; the Filesystem, Database (record store) and external collaborators that
are not part of the sources are modelled from the specification where needed and
marked as such in their doc comments.
-/

namespace FrictionlessProj

/-- A sandbox-relative path, as the Python code passes it around: a plain string. -/
abbrev FPath := String

/-- File content, a sequence of byte values. -/
abbrev Bytes := List Nat

/-! ## Path resolution (PathResolver) -/

/-- Splitting a character list on a separator, with the semantics of the Python
string split method: the result is never empty, and empty segments are kept. -/
def splitChar (sep : Char) : List Char → List (List Char)
  | [] => [[]]
  | c :: rest =>
    let r := splitChar sep rest
    if c == sep then [] :: r
    else
      match r with
      | [] => [[c]]
      | s :: ss => (c :: s) :: ss

/-- Modelled from the spec: normalization of path segments. Empty segments and
single-dot segments are dropped, a parent segment pops the last kept segment and
fails (escapes the root) when there is nothing left to pop. -/
def normSegs : List (List Char) → List (List Char) → Option (List (List Char))
  | [], acc => some acc.reverse
  | s :: rest, acc =>
    if s = [] ∨ s = ['.'] then normSegs rest acc
    else if s = ['.', '.'] then
      match acc with
      | [] => none
      | _ :: acc2 => normSegs rest acc2
    else normSegs rest (s :: acc)

/-- Modelled from the spec: the PathResolver. An absolute path is rejected, and a
relative path is split on the separator and normalized; the result is the list of
canonical segments, or none when the path escapes the sandbox root. The
Filesystem class implementing this is not among the sources. -/
def resolvePath (p : FPath) : Option (List (List Char)) :=
  match p.data with
  | '/' :: _ => none
  | _ => normSegs (splitChar '/' p.data) []

/-- A requested path that escapes the sandbox: an absolute path or a path whose
parent-directory segments escape the root after normalization. -/
def isEscaping (p : FPath) : Bool := (resolvePath p).isNone

/-- Modelled from the spec: the canonical sandbox-relative form of a secure path.
A path that escapes, or that resolves to the sandbox root itself, yields none --
the security tests reject both kinds. -/
def canonical (p : FPath) : Option FPath :=
  match resolvePath p with
  | none => none
  | some [] => none
  | some segs => some (String.mk (List.intercalate ['/'] segs))

/-! ## Data model -/

/-- A named field of an indexed tabular file, part of a Record. -/
structure Field where
  name : String
  ftype : String
deriving DecidableEq

/-- A record of the record store: indexing metadata for one tabular file. -/
structure Record where
  path : FPath
  errorCount : Option Nat
  fields : List Field
deriving DecidableEq

/-- A filesystem listing entry (the IFileItem of the source): path, inferred type
and, after the Project join, an optional row-error count. -/
structure IFileItem where
  path : FPath
  ftype : String
  errorCount : Option Nat
deriving DecidableEq

/-- The IFile of the source: a listing entry together with an optional Record. -/
structure IFile where
  path : FPath
  ftype : String
  record : Option Record
deriving DecidableEq

/-- The filesystem of one sandbox: stored files keyed by canonical path. -/
structure FsState where
  files : List (FPath × Bytes)
deriving DecidableEq

/-- The record store of one sandbox. -/
structure DbState where
  records : List Record
deriving DecidableEq

/-- The state a Project orchestrates: a filesystem and a record store. -/
structure ProjectState where
  fs : FsState
  db : DbState
deriving DecidableEq

/-- The error kinds of the specification, together with the assertion failure and
the raw database failure the Python code can surface. -/
inductive Err where
  | securityError
  | notFoundError
  | conflictError
  | partialFailureError
  | assertionError
  | dbError (msg : String)
deriving DecidableEq

/-- Decidable equality of results, used to evaluate the theorems on concrete
inputs. -/
instance instDecEqExcept {ε α : Type} [DecidableEq ε] [DecidableEq α] :
    DecidableEq (Except ε α) := fun x y =>
  match x, y with
  | Except.ok a, Except.ok b =>
    if h : a = b then isTrue (by rw [h]) else isFalse (by intro he; cases he; exact h rfl)
  | Except.error a, Except.error b =>
    if h : a = b then isTrue (by rw [h]) else isFalse (by intro he; cases he; exact h rfl)
  | Except.ok _, Except.error _ => isFalse (by intro he; cases he)
  | Except.error _, Except.ok _ => isFalse (by intro he; cases he)

/-- The file type inferred from the extension of the final path segment;
an unresolvable extension defaults to the generic file type. -/
def inferType (p : FPath) : String :=
  let seg := (splitChar '/' p.data).getLastD []
  let ext := (seg.reverse.takeWhile (fun c => !(c == '.'))).reverse
  if ext.length == seg.length ∨ ext = [] then "file" else String.mk ext

/-! ## Filesystem operations (modelled from the spec; the Filesystem class is
not among the sources, only its callers in project.py are) -/

/-- Modelled from the spec: getSecureFullpath, the thin exposure of the
PathResolver; fails with SecurityError when the path is not secure. -/
def FsState.get_secure_fullpath (p : FPath) : Except Err FPath :=
  match canonical p with
  | none => Except.error Err.securityError
  | some c => Except.ok c

/-- Look up the stored content at a canonical path. -/
def FsState.lookupFile (fs : FsState) (c : FPath) : Option Bytes :=
  (fs.files.find? (fun kv => kv.1 == c)).map (fun kv => kv.2)

/-- Whether a requested path denotes an existing file. -/
def ProjectState.hasFile (st : ProjectState) (p : FPath) : Bool :=
  match canonical p with
  | none => false
  | some c => (st.fs.lookupFile c).isSome

/-- Modelled from the spec: Filesystem.read_bytes routes the path through the
resolver and fails with NotFoundError when the file is absent. -/
def FsState.read_bytes (fs : FsState) (p : FPath) : Except Err Bytes :=
  match canonical p with
  | none => Except.error Err.securityError
  | some c =>
    match fs.lookupFile c with
    | some b => Except.ok b
    | none => Except.error Err.notFoundError

/-- Modelled from the spec and the source usage: Filesystem.read_file routes the
path through the resolver and returns the listing entry, or none when the file is
absent (project.py and the server schema treat the absent case as a None value). -/
def FsState.read_file (fs : FsState) (p : FPath) : Except Err (Option IFileItem) :=
  match canonical p with
  | none => Except.error Err.securityError
  | some c =>
    match fs.lookupFile c with
    | some _ => Except.ok (some { path := p, ftype := inferType p, errorCount := none })
    | none => Except.ok none

/-- Modelled from the spec: Filesystem.list_files enumerates the stored files. -/
def FsState.list_files (fs : FsState) : List IFileItem :=
  fs.files.map (fun kv => { path := kv.1, ftype := inferType kv.1, errorCount := none })

/-- Modelled from the spec: Filesystem.delete_file; deleting a non-existent path
fails with NotFoundError, an insecure path with SecurityError. -/
def FsState.delete_file (fs : FsState) (p : FPath) : Except Err FsState :=
  match canonical p with
  | none => Except.error Err.securityError
  | some c =>
    match fs.lookupFile c with
    | some _ => Except.ok ⟨fs.files.filter (fun kv => !(kv.1 == c))⟩
    | none => Except.error Err.notFoundError

/-- Modelled from the spec: Filesystem.is_filename is true only when the path has
no directory separator. -/
def FsState.is_filename (p : FPath) : Bool := !(p.data.contains '/')

/-! ## Record store operations (modelled from the spec; the Database class is not
among the sources, only its callers in project.py are) -/

/-- Modelled from the spec: Database.read_record returns the record keyed at the
path, or absent (not an error). -/
def DbState.read_record (db : DbState) (p : FPath) : Option Record :=
  db.records.find? (fun r => r.path == p)

/-- Modelled from the spec: Database.delete_record removes the record when
present and is a no-op when absent. -/
def DbState.delete_record (db : DbState) (p : FPath) : DbState :=
  ⟨db.records.filter (fun r => !(r.path == p))⟩

/-- Modelled from the spec: Database.list_records returns all current records. -/
def DbState.list_records (db : DbState) : List Record :=
  db.records

/-- Modelled from the spec: Database.create_record runs the indexing collaborator
and inserts the resulting record; a record that already exists for the path is a
conflict. The indexing collaborator is passed in as the function idx, giving the
fields and the row-error count for a path. -/
def DbState.create_record (db : DbState) (idx : FPath → List Field × Nat)
    (p : FPath) : Except Err (Record × DbState) :=
  match db.read_record p with
  | some _ => Except.error Err.conflictError
  | none =>
    let r : Record := { path := p, errorCount := some (idx p).2, fields := (idx p).1 }
    Except.ok (r, ⟨r :: db.records⟩)

/-- Modelled from the spec: the bytes Database.export_table materializes for a
record; the tabular format itself is an external concern, so the content is an
opaque function of the record. -/
def exportBytes (r : Record) : Bytes :=
  (r.fields.map (fun f => f.name.data.map Char.toNat)).flatten

/-! ## Text codec used by the text resources -/

/-- Encoding of a text value into stored bytes. -/
def encodeText (s : String) : Bytes := s.data.map Char.toNat

/-- Decoding of stored bytes into a text value. -/
def decodeText (b : Bytes) : String := String.mk (b.map Char.ofNat)

/-! ## Collaborator steps for the move/rename orchestration -/

/-- One primitive collaborator invocation performed by a move or rename call. -/
inductive OrchStep where
  | fsMove (src : FPath) (folder : Option String)
  | fsRename (src : FPath) (name : String)
  | dbMove (src tgt : FPath)
deriving DecidableEq

/-! ## Session identifiers -/

/-- The URL-safe base64 alphabet used by the Python secrets module. -/
def b64urlAlphabet : List Char :=
  "ABCDEFGHIJKLMNOPQRSTUVWXYZabcdefghijklmnopqrstuvwxyz0123456789-_".data

/-- The alphabet character for a 6-bit value. -/
def b64char (n : Nat) : Char := b64urlAlphabet.getD (n % 64) 'A'

/-- URL-safe base64 without padding, as the Python secrets module produces it:
three bytes become four characters, one trailing byte two, two trailing three. -/
def base64urlEncode : List Nat → List Char
  | [] => []
  | [b1] => [b64char (b1 / 4), b64char ((b1 % 4) * 16)]
  | [b1, b2] => [b64char (b1 / 4), b64char ((b1 % 4) * 16 + b2 / 16), b64char ((b2 % 16) * 4)]
  | b1 :: b2 :: b3 :: rest =>
    b64char (b1 / 4) :: b64char ((b1 % 4) * 16 + b2 / 16) ::
      b64char ((b2 % 16) * 4 + b3 / 64) :: b64char (b3 % 64) :: base64urlEncode rest

/-- Modelled from the Python standard library: secrets.token_urlsafe applied to
the given random bytes (16 of them in the source). -/
def token_urlsafe (entropy : List Nat) : String := String.mk (base64urlEncode entropy)

/-- Python truthiness of an optional string: None and the empty string are falsy. -/
def truthy : Option String → Bool
  | none => false
  | some s => !(s == "")

/-- A URL-safe character: alphanumeric, dash or underscore. -/
def urlSafeChar (c : Char) : Bool := c.isAlphanum || c == '-' || c == '_'

/-! ## Created file names -/

/-- The final segment of a requested path, as the Python split on the separator
takes it. -/
def finalSegment (p : FPath) : List Char := (splitChar '/' p.data).getLastD []

/-- The final segment with a query string stripped, as Project.create_file
computes it before deciding on the default extension. -/
def strippedSegment (p : FPath) : List Char :=
  if (finalSegment p).contains '?' then (finalSegment p).takeWhile (fun c => !(c == '?'))
  else finalSegment p

/-- The name computation of Project.create_file: the final path segment, stripped
of a query string, with the default .csv extension appended when it has no dot. -/
def create_file_name (path : FPath) : String :=
  if (strippedSegment path).contains '.' then String.mk (strippedSegment path)
  else String.mk (strippedSegment path ++ ('.' :: 'c' :: 's' :: 'v' :: []))

/-- A path whose character data ends in the default .csv extension. -/
def EndsCsv (p : FPath) : Prop := ∃ s, p.data = s ++ ('.' :: 'c' :: 's' :: 'v' :: [])

/-- A create result whose operation succeeded and whose stored path ends in the
default .csv extension. -/
def resultEndsCsv : Except Err (FPath × ProjectState) → Prop
  | Except.ok (t, _) => EndsCsv t
  | Except.error _ => False

/-- Splitting a name into stem and extension at the last dot; a name without a
dot has an empty extension. -/
def splitExtChars (cs : List Char) : List Char × List Char :=
  let r := cs.reverse
  let afterDot := r.takeWhile (fun c => !(c == '.'))
  if afterDot.length == r.length then (cs, [])
  else ((r.drop (afterDot.length + 1)).reverse, '.' :: afterDot.reverse)

/-- The n-th disambiguation candidate for a colliding path: a numeric suffix in
front of the extension. -/
def dedupCandidate (c : FPath) (n : Nat) : FPath :=
  String.mk (splitExtChars c.data).1 ++ Nat.repr (n + 2) ++ String.mk (splitExtChars c.data).2

/-- Whether a canonical path is already occupied. -/
def FsState.taken (fs : FsState) (c : FPath) : Bool := (fs.lookupFile c).isSome

/-- Modelled from the spec: deterministic disambiguation of a colliding target
path by a numeric suffix; the untaken candidate with the smallest number wins
(one always exists among the first length-plus-one candidates). -/
def FsState.dedupPath (fs : FsState) (c : FPath) : FPath :=
  if fs.taken c then
    match (List.range (fs.files.length + 1)).find?
        (fun n => !(fs.taken (dedupCandidate c n))) with
    | some n => dedupCandidate c n
    | none => c
  else c

/-- The folder-qualified target of a created file. -/
def joinFolder : Option String → String → FPath
  | none, name => name
  | some f, name => f ++ "/" ++ name

/-- Modelled from the spec: Filesystem.create_file writes the bytes under the
folder at the given name, which must be a bare filename; a collision is
deterministically disambiguated by a numeric suffix rather than overwritten. -/
def FsState.create_file (fs : FsState) (name : String) (b : Bytes)
    (folder : Option String) : Except Err (FPath × FsState) :=
  if !(FsState.is_filename name) then Except.error Err.securityError
  else
    let target := fs.dedupPath (joinFolder folder name)
    Except.ok (target, ⟨fs.files ++ [(target, b)]⟩)

/-! ## Publishing -/

/-- What the publishing collaborator returns on success: the result object, with
the full name the source substitutes for the github portal. -/
structure PublishResult where
  full_name : String
  value : String
deriving DecidableEq

/-- The response mapping Project.publish_package builds: a url on success, an
error message on failure. -/
structure PublishResponse where
  url : Option String
  error : Option String
deriving DecidableEq

/-- The control lookup of Project.publish_package over the github, zenodo and
ckan portals. -/
def controlFor (t : String) : Option String :=
  if t == "github" || t == "zenodo" || t == "ckan" then some t else none

/-! ## Project operations (embedded from src/frictionless/project/project.py) -/

namespace Project

/-- Project.read_bytes: delegates to the filesystem. -/
def read_bytes (st : ProjectState) (p : FPath) : Except Err Bytes × ProjectState :=
  match st.fs.read_bytes p with
  | Except.error e => (Except.error e, st)
  | Except.ok b => (Except.ok b, st)

/-- Project.read_json: secures the path, then reads the file through the JSON
resource. JSON decoding is the external resource collaborator, so the returned
value is the raw content; a missing file fails as NotFoundError. -/
def read_json (st : ProjectState) (p : FPath) : Except Err Bytes × ProjectState :=
  match FsState.get_secure_fullpath p with
  | Except.error e => (Except.error e, st)
  | Except.ok c =>
    match st.fs.lookupFile c with
    | some b => (Except.ok b, st)
    | none => (Except.error Err.notFoundError, st)

/-- Project.write_json: secures the path, then writes the serialized data through
the JSON resource; serialization is the external resource collaborator, so the
data is already bytes. -/
def write_json (st : ProjectState) (p : FPath) (data : Bytes) :
    Except Err Unit × ProjectState :=
  match FsState.get_secure_fullpath p with
  | Except.error e => (Except.error e, st)
  | Except.ok c =>
    (Except.ok (), ⟨⟨(st.fs.files.filter (fun kv => !(kv.1 == c))) ++ [(c, data)]⟩, st.db⟩)

/-- Project.read_text: secures the path, then reads the file through the text
resource, decoding the stored bytes. -/
def read_text (st : ProjectState) (p : FPath) : Except Err String × ProjectState :=
  match FsState.get_secure_fullpath p with
  | Except.error e => (Except.error e, st)
  | Except.ok c =>
    match st.fs.lookupFile c with
    | some b => (Except.ok (decodeText b), st)
    | none => (Except.error Err.notFoundError, st)

/-- Project.write_text: secures the path, then writes the encoded text through
the text resource. -/
def write_text (st : ProjectState) (p : FPath) (text : String) :
    Except Err Unit × ProjectState :=
  match FsState.get_secure_fullpath p with
  | Except.error e => (Except.error e, st)
  | Except.ok c =>
    (Except.ok (),
     ⟨⟨(st.fs.files.filter (fun kv => !(kv.1 == c))) ++ [(c, encodeText text)]⟩, st.db⟩)

/-- Project.export_table: asserts the target is a bare filename, secures the
target and then the source, and has the database materialize the table; the
database step fails with NotFoundError when the source has no record. -/
def export_table (st : ProjectState) (source target : FPath) :
    Except Err FPath × ProjectState :=
  if !(FsState.is_filename target) then (Except.error Err.assertionError, st)
  else
    match FsState.get_secure_fullpath target with
    | Except.error e => (Except.error e, st)
    | Except.ok tc =>
      match FsState.get_secure_fullpath source with
      | Except.error e => (Except.error e, st)
      | Except.ok sc =>
        match st.db.read_record sc with
        | none => (Except.error Err.notFoundError, st)
        | some r =>
          (Except.ok tc,
           ⟨⟨(st.fs.files.filter (fun kv => !(kv.1 == tc))) ++ [(tc, exportBytes r)]⟩, st.db⟩)

/-- Project.read_file: reads the filesystem entry; when it is present, attaches
the record from the record store when one exists. The source returns None (here:
none) when the filesystem entry is absent. -/
def read_file (st : ProjectState) (p : FPath) : Except Err (Option IFile) :=
  match st.fs.read_file p with
  | Except.error e => Except.error e
  | Except.ok none => Except.ok none
  | Except.ok (some item) =>
    Except.ok (some { path := item.path, ftype := item.ftype, record := st.db.read_record p })

/-- Project.delete_file: deletes the record first, then the filesystem entry.
The returned list is the sequence of states the call passes through, starting
with the initial state; the second component is the returned path or the error. -/
def delete_file (st : ProjectState) (p : FPath) :
    List ProjectState × Except Err FPath :=
  let st1 : ProjectState := ⟨st.fs, st.db.delete_record p⟩
  match st1.fs.delete_file p with
  | Except.error e => ([st, st1], Except.error e)
  | Except.ok fs2 => ([st, st1, ⟨fs2, st1.db⟩], Except.ok p)

/-- Project.index_file: reads the file; when it exists and has no record yet, has
the database create one from the indexing collaborator idx and attaches it. The
third component records whether the indexing collaborator was invoked. -/
def index_file (idx : FPath → List Field × Nat) (st : ProjectState) (p : FPath) :
    Except Err (Option IFile × ProjectState × Bool) :=
  match read_file st p with
  | Except.error e => Except.error e
  | Except.ok none => Except.ok (none, st, false)
  | Except.ok (some file) =>
    match file.record with
    | some _ => Except.ok (some file, st, false)
    | none =>
      match st.db.create_record idx p with
      | Except.error e => Except.error e
      | Except.ok (r, db2) =>
        Except.ok (some { file with record := some r }, ⟨st.fs, db2⟩, true)

/-- Project.list_files: joins the filesystem listing with the record store by
path, copying the row-error count onto an entry when its record has one. -/
def list_files (st : ProjectState) : List IFileItem :=
  (st.fs.list_files).map (fun item =>
    match st.db.read_record item.path with
    | some record =>
      match record.errorCount with
      | some n => { item with errorCount := some n }
      | none => item
    | none => item)

/-- Project.create_file: computes the stored name from the path (final segment,
query string stripped, default .csv extension) and delegates to the filesystem;
content stands for the bytes the FileResource collaborator reads from the path. -/
def create_file (st : ProjectState) (path : FPath) (content : Bytes)
    (folder : Option String) : Except Err (FPath × ProjectState) :=
  match st.fs.create_file (create_file_name path) content folder with
  | Except.error e => Except.error e
  | Except.ok (t, fs2) => Except.ok (t, ⟨fs2, st.db⟩)

/-- Project.upload_file: delegates to the filesystem with the given name. -/
def upload_file (st : ProjectState) (name : String) (b : Bytes)
    (folder : Option String) : Except Err (FPath × ProjectState) :=
  match st.fs.create_file name b folder with
  | Except.error e => Except.error e
  | Except.ok (t, fs2) => Except.ok (t, ⟨fs2, st.db⟩)

/-- Project.save_file: delegates to the filesystem with the given name. -/
def save_file (st : ProjectState) (name : String) (b : Bytes)
    (folder : Option String) : Except Err (FPath × ProjectState) :=
  match st.fs.create_file name b folder with
  | Except.error e => Except.error e
  | Except.ok (t, fs2) => Except.ok (t, ⟨fs2, st.db⟩)

/-- Project.move_file over the fallible collaborators fsMove (Filesystem.move_file)
and dbMove (Database.move_record), neither among the sources: the filesystem is
moved first, then the record is moved, and an error at either step propagates as
that step's own error. The first component is the sequence of collaborator
invocations actually performed. -/
def move_file (fsMove : FPath → Option String → Except Err FPath)
    (dbMove : FPath → FPath → Except Err Unit)
    (path : FPath) (folder : Option String) : List OrchStep × Except Err FPath :=
  match fsMove path folder with
  | Except.error e => ([OrchStep.fsMove path folder], Except.error e)
  | Except.ok target =>
    match dbMove path target with
    | Except.error e =>
      ([OrchStep.fsMove path folder, OrchStep.dbMove path target], Except.error e)
    | Except.ok _ =>
      ([OrchStep.fsMove path folder, OrchStep.dbMove path target], Except.ok target)

/-- Project.rename_file over the fallible collaborators fsRename
(Filesystem.rename_file) and dbMove (Database.move_record): the filesystem is
renamed first, then the record is moved, and an error at either step propagates
as that step's own error. -/
def rename_file (fsRename : FPath → String → Except Err FPath)
    (dbMove : FPath → FPath → Except Err Unit)
    (path : FPath) (name : String) : List OrchStep × Except Err FPath :=
  match fsRename path name with
  | Except.error e => ([OrchStep.fsRename path name], Except.error e)
  | Except.ok target =>
    match dbMove path target with
    | Except.error e =>
      ([OrchStep.fsRename path name, OrchStep.dbMove path target], Except.error e)
    | Except.ok _ =>
      ([OrchStep.fsRename path name, OrchStep.dbMove path target], Except.ok target)

/-- The authorization part of the Project constructor: a root project must not be
given a session, a non-root project generates one from 16 random bytes when none
is supplied and asserts its length is 22. The result is the stored session
attribute; directory provisioning and the database handle are omitted as they do
not bear on the session claims. -/
def init (sessionArg : Option String) (is_root : Bool) (entropy : List Nat) :
    Except Err (Option String) :=
  if is_root then
    if truthy sessionArg then Except.error Err.assertionError
    else Except.ok sessionArg
  else
    let s := if truthy sessionArg then sessionArg.getD "" else token_urlsafe entropy
    if s.length == 22 then Except.ok (some s) else Except.error Err.assertionError

/-- Project.publish_package: looks up the control for the requested type,
reporting an error in the response when none matches; otherwise calls the
publishing collaborator, turning its failure (the FrictionlessException message)
into an error entry of the response and its success into the url entry, with the
full name substituted for the github portal. The package-name defaulting of the
source only affects the package sent to the collaborator, never the response. -/
def publish_package (publish : Option String → String → Except String PublishResult)
    (control_type : String) (url : Option String) : PublishResponse :=
  match controlFor control_type with
  | none => { url := none, error := some "Matching control[Github|Zenodo|CKAN] not found" }
  | some _ =>
    match publish url control_type with
    | Except.ok r =>
      { url := some (if control_type == "github" then r.full_name else r.value),
        error := none }
    | Except.error msg => { url := none, error := some msg }

end Project

/-! ## Concrete sandboxes used to evaluate the theorems -/

/-- A sandbox with no files and no records. -/
def emptyState : ProjectState := ⟨⟨[]⟩, ⟨[]⟩⟩

/-- An indexing record for the sample sandbox. -/
def sampleRecord : Record :=
  { path := "a.csv", errorCount := some 2, fields := [{ name := "id", ftype := "integer" }] }

/-- A sandbox with an indexed csv file and an unindexed text file. -/
def sampleState : ProjectState :=
  ⟨⟨[("a.csv", [97, 10]), ("b.txt", [98])]⟩, ⟨[sampleRecord]⟩⟩

/-- A 22-character session value made of characters outside the URL-safe set. -/
def bangSession : String := String.mk (List.replicate 22 '!')

/-! ## Theorems -/

/-- C10: Project.upload_file and Project.save_file are extensionally equal: for
every state, name, byte content and optional folder both delegate identically to
the filesystem create operation and return the same resulting path and state. -/
theorem upload_save_extensionally_equal (st : ProjectState) (name : String)
    (b : Bytes) (folder : Option String) :
    Project.upload_file st name b folder = Project.save_file st name b folder := rfl

/-- C5 counterexample: on a sandbox with no file at the requested (secure) path,
Project.read_file returns the absent value rather than failing, so the claim
that it fails with NotFoundError is false at this input. -/
theorem read_file_absent_counterexample :
    Project.read_file emptyState "data.txt" = Except.ok none ∧
      Except.ok none ≠ (Except.error Err.notFoundError : Except Err (Option IFile)) := by
  exact ⟨by decide, by decide⟩

/-- C5 amended: for every secure path with no corresponding file in the sandbox,
Project.read_file returns the absent value (None in the source) rather than
failing with NotFoundError. -/
theorem read_file_absent_returns_none (st : ProjectState) (p c : FPath)
    (hc : canonical p = some c) (hf : st.fs.lookupFile c = none) :
    Project.read_file st p = Except.ok none := by
  simp [Project.read_file, FsState.read_file, hc, hf]

/-- Witness for the C5 amended theorem at a concrete sandbox and path. -/
theorem read_file_absent_returns_none_witness :
    canonical "data.txt" = some "data.txt" ∧
      emptyState.fs.lookupFile "data.txt" = none ∧
      Project.read_file emptyState "data.txt" = Except.ok none :=
  ⟨by decide, by decide,
    read_file_absent_returns_none emptyState "data.txt" "data.txt" (by decide) (by decide)⟩

/-- C2 amended: in Project.move_file and Project.rename_file the filesystem step
always happens first and is immediately followed by the record step within the
same call; if the filesystem step fails the record step does not run; and if the
filesystem step succeeds but the record step fails, that failure propagates to
the caller as the record step's own error, unchanged. -/
theorem move_rename_fs_before_record
    (fsMove : FPath → Option String → Except Err FPath)
    (fsRename : FPath → String → Except Err FPath)
    (dbMove : FPath → FPath → Except Err Unit)
    (p : FPath) (folder : Option String) (name : String) :
    ((Project.move_file fsMove dbMove p folder).1.head? = some (OrchStep.fsMove p folder) ∧
      (∀ e, fsMove p folder = Except.error e →
        Project.move_file fsMove dbMove p folder
          = ([OrchStep.fsMove p folder], Except.error e)) ∧
      (∀ t e, fsMove p folder = Except.ok t → dbMove p t = Except.error e →
        Project.move_file fsMove dbMove p folder
          = ([OrchStep.fsMove p folder, OrchStep.dbMove p t], Except.error e)) ∧
      (∀ t, fsMove p folder = Except.ok t → dbMove p t = Except.ok () →
        Project.move_file fsMove dbMove p folder
          = ([OrchStep.fsMove p folder, OrchStep.dbMove p t], Except.ok t))) ∧
    ((Project.rename_file fsRename dbMove p name).1.head? = some (OrchStep.fsRename p name) ∧
      (∀ e, fsRename p name = Except.error e →
        Project.rename_file fsRename dbMove p name
          = ([OrchStep.fsRename p name], Except.error e)) ∧
      (∀ t e, fsRename p name = Except.ok t → dbMove p t = Except.error e →
        Project.rename_file fsRename dbMove p name
          = ([OrchStep.fsRename p name, OrchStep.dbMove p t], Except.error e)) ∧
      (∀ t, fsRename p name = Except.ok t → dbMove p t = Except.ok () →
        Project.rename_file fsRename dbMove p name
          = ([OrchStep.fsRename p name, OrchStep.dbMove p t], Except.ok t))) := by
  constructor
  · refine ⟨?_, ?_, ?_, ?_⟩
    · cases hf : fsMove p folder with
      | error e => simp [Project.move_file, hf]
      | ok t =>
        cases hd : dbMove p t with
        | error e => simp [Project.move_file, hf, hd]
        | ok u => simp [Project.move_file, hf, hd]
    · intro e hf
      simp [Project.move_file, hf]
    · intro t e hf hd
      simp [Project.move_file, hf, hd]
    · intro t hf hd
      simp [Project.move_file, hf, hd]
  · refine ⟨?_, ?_, ?_, ?_⟩
    · cases hf : fsRename p name with
      | error e => simp [Project.rename_file, hf]
      | ok t =>
        cases hd : dbMove p t with
        | error e => simp [Project.rename_file, hf, hd]
        | ok u => simp [Project.rename_file, hf, hd]
    · intro e hf
      simp [Project.rename_file, hf]
    · intro t e hf hd
      simp [Project.rename_file, hf, hd]
    · intro t hf hd
      simp [Project.rename_file, hf, hd]

/-- Witness for the C2 amended theorem: a concrete successful move performs the
filesystem step first and then the record step. -/
theorem move_rename_fs_before_record_witness :
    Project.move_file (fun _ _ => Except.ok "b/a.csv") (fun _ _ => Except.ok ())
        "a.csv" (some "b")
      = ([OrchStep.fsMove "a.csv" (some "b"), OrchStep.dbMove "a.csv" "b/a.csv"],
          Except.ok "b/a.csv") :=
  (move_rename_fs_before_record (fun _ _ => Except.ok "b/a.csv")
      (fun _ n => Except.ok n) (fun _ _ => Except.ok ())
      "a.csv" (some "b") "c.csv").1.2.2.2 "b/a.csv" rfl rfl

/-- C2 counterexample: when the filesystem step succeeds and the record step
fails, the call surfaces the record step's own database error, not a distinct
PartialFailureError, so the claim as stated is false at this input. -/
theorem move_partial_failure_counterexample :
    (Project.move_file (fun _ _ => Except.ok "t.csv")
        (fun _ _ => Except.error (Err.dbError "record move failed")) "a.csv" none).2
      = Except.error (Err.dbError "record move failed") ∧
    (Project.move_file (fun _ _ => Except.ok "t.csv")
        (fun _ _ => Except.error (Err.dbError "record move failed")) "a.csv" none).2
      ≠ Except.error Err.partialFailureError := by
  exact ⟨by decide, by decide⟩

/-- C7: Project.publish_package turns a publishing collaborator failure into a
structured response with an error message, including the case of an unrecognized
control type, and on success returns a response carrying the published url. -/
theorem publish_package_structured_result
    (publish : Option String → String → Except String PublishResult)
    (ct : String) (url : Option String) :
    (controlFor ct = none →
      Project.publish_package publish ct url
        = { url := none, error := some "Matching control[Github|Zenodo|CKAN] not found" }) ∧
    (∀ msg, controlFor ct ≠ none → publish url ct = Except.error msg →
      Project.publish_package publish ct url = { url := none, error := some msg }) ∧
    (∀ r, controlFor ct ≠ none → publish url ct = Except.ok r →
      Project.publish_package publish ct url
        = { url := some (if ct == "github" then r.full_name else r.value),
            error := none }) := by
  refine ⟨?_, ?_, ?_⟩
  · intro hc
    simp [Project.publish_package, hc]
  · intro msg hc hp
    cases hcc : controlFor ct with
    | none => exact absurd hcc hc
    | some c => simp [Project.publish_package, hcc, hp]
  · intro r hc hp
    cases hcc : controlFor ct with
    | none => exact absurd hcc hc
    | some c => simp [Project.publish_package, hcc, hp]

/-- Witness for C7: a concrete collaborator failure is reported in the response
rather than propagated. -/
theorem publish_package_structured_result_witness :
    controlFor "github" ≠ none ∧
      Project.publish_package (fun _ _ => Except.error "403 Forbidden") "github" none
        = { url := none, error := some "403 Forbidden" } :=
  ⟨by decide,
    (publish_package_structured_result (fun _ _ => Except.error "403 Forbidden")
        "github" none).2.1 "403 Forbidden" (by decide) rfl⟩

/-- An escaping path has no canonical form. -/
theorem canonical_of_isEscaping (p : FPath) (h : isEscaping p = true) :
    canonical p = none := by
  have h2 : resolvePath p = none := by
    unfold isEscaping at h
    exact Option.isNone_iff_eq_none.mp h
  unfold canonical
  rw [h2]

/-- C1: for every caller-supplied path with an escaping segment, each Project
operation taking that path (read_json, write_json, read_text, write_text,
read_bytes, export_table) fails with SecurityError and leaves the filesystem and
the record store unchanged. -/
theorem security_error_no_mutation (st : ProjectState) (p : FPath) (d : Bytes)
    (t : FPath) (s : String) (h : isEscaping p = true) :
    Project.read_json st p = (Except.error Err.securityError, st) ∧
    Project.write_json st p d = (Except.error Err.securityError, st) ∧
    Project.read_text st p = (Except.error Err.securityError, st) ∧
    Project.write_text st p s = (Except.error Err.securityError, st) ∧
    Project.read_bytes st p = (Except.error Err.securityError, st) ∧
    (FsState.is_filename t = true →
      Project.export_table st p t = (Except.error Err.securityError, st)) := by
  have hc : canonical p = none := canonical_of_isEscaping p h
  refine ⟨?_, ?_, ?_, ?_, ?_, ?_⟩
  · simp [Project.read_json, FsState.get_secure_fullpath, hc]
  · simp [Project.write_json, FsState.get_secure_fullpath, hc]
  · simp [Project.read_text, FsState.get_secure_fullpath, hc]
  · simp [Project.write_text, FsState.get_secure_fullpath, hc]
  · simp [Project.read_bytes, FsState.read_bytes, hc]
  · intro ht
    cases hct : canonical t with
    | none => simp [Project.export_table, ht, FsState.get_secure_fullpath, hct]
    | some tc => simp [Project.export_table, ht, FsState.get_secure_fullpath, hct, hc]

/-- Witness for C1 at a concrete sandbox and the escaping path of the security
tests. -/
theorem security_error_no_mutation_witness :
    isEscaping "../path" = true ∧
      Project.read_json sampleState "../path" = (Except.error Err.securityError, sampleState) ∧
      Project.write_text sampleState "../path" "hack"
        = (Except.error Err.securityError, sampleState) :=
  ⟨by decide,
    (security_error_no_mutation sampleState "../path" [104] "out.csv" "hack" (by decide)).1,
    (security_error_no_mutation sampleState "../path" [104] "out.csv" "hack" (by decide)).2.2.2.1⟩

/-- Deleting a record really removes it from the store. -/
theorem read_record_delete_record (db : DbState) (p : FPath) :
    (db.delete_record p).read_record p = none := by
  unfold DbState.delete_record DbState.read_record
  rw [List.find?_eq_none]
  intro r hr
  have := List.mem_filter.mp hr
  simpa using this.2

/-- C3: Project.delete_file removes the record for the path first and only then
the filesystem entry: the call starts at the initial state, its second state has
the record removed with the filesystem untouched, and in no state of the call
does a record exist for the path once its file has been removed. -/
theorem delete_record_before_file (st : ProjectState) (p : FPath) :
    (Project.delete_file st p).1.head? = some st ∧
    (Project.delete_file st p).1.get? 1 = some ⟨st.fs, st.db.delete_record p⟩ ∧
    (∀ s ∈ (Project.delete_file st p).1, s = st ∨ s.db = st.db.delete_record p) ∧
    (∀ s ∈ (Project.delete_file st p).1,
      st.hasFile p = true → s.hasFile p = false → s.db.read_record p = none) := by
  cases hd : FsState.delete_file st.fs p with
  | error e =>
    refine ⟨?_, ?_, ?_, ?_⟩
    · simp [Project.delete_file, hd]
    · simp [Project.delete_file, hd]
    · intro s hs
      simp [Project.delete_file, hd] at hs
      rcases hs with rfl | rfl
      · exact Or.inl rfl
      · exact Or.inr rfl
    · intro s hs h1 h2
      simp [Project.delete_file, hd] at hs
      rcases hs with rfl | rfl
      · rw [h1] at h2; cases h2
      · exact read_record_delete_record st.db p
  | ok fs2 =>
    refine ⟨?_, ?_, ?_, ?_⟩
    · simp [Project.delete_file, hd]
    · simp [Project.delete_file, hd]
    · intro s hs
      simp [Project.delete_file, hd] at hs
      rcases hs with rfl | rfl | rfl
      · exact Or.inl rfl
      · exact Or.inr rfl
      · exact Or.inr rfl
    · intro s hs h1 h2
      simp [Project.delete_file, hd] at hs
      rcases hs with rfl | rfl | rfl
      · rw [h1] at h2; cases h2
      · exact read_record_delete_record st.db p
      · exact read_record_delete_record st.db p

/-- Witness for C3: in the final state of a concrete delete the file is gone and
so is its record. -/
theorem delete_record_before_file_witness :
    sampleState.hasFile "a.csv" = true ∧
      (⟨⟨[("b.txt", [98])]⟩, ⟨[]⟩⟩ : ProjectState).db.read_record "a.csv" = none :=
  ⟨by decide,
    (delete_record_before_file sampleState "a.csv").2.2.2
      ⟨⟨[("b.txt", [98])]⟩, ⟨[]⟩⟩ (by decide) (by decide) (by decide)⟩

/-- C4: Project.index_file is idempotent: a path whose file already has a record
gets that record back unchanged with the indexing collaborator not invoked and
the state untouched; and after any successful index_file call, a second call on
the resulting state returns the same file and state without invoking the
collaborator, so two successive calls return the same record. -/
theorem index_file_idempotent (idx : FPath → List Field × Nat) (st st2 : ProjectState)
    (p : FPath) (f g : IFile) (r : Record) (b : Bool) :
    (Project.read_file st p = Except.ok (some f) → f.record = some r →
      Project.index_file idx st p = Except.ok (some f, st, false)) ∧
    (Project.index_file idx st p = Except.ok (some g, st2, b) →
      Project.index_file idx st2 p = Except.ok (some g, st2, false)) := by
  constructor
  · intro h1 h2
    simp [Project.index_file, h1, h2]
  · intro h
    cases hfsr : st.fs.read_file p with
    | error e => simp [Project.index_file, Project.read_file, hfsr] at h
    | ok o =>
      cases o with
      | none => simp [Project.index_file, Project.read_file, hfsr] at h
      | some item =>
        cases hrec : st.db.read_record p with
        | some r0 =>
          simp [Project.index_file, Project.read_file, hfsr, hrec] at h
          obtain ⟨hg, hst, hb⟩ := h
          subst hst
          simp [Project.index_file, Project.read_file, hfsr, hrec, ← hg]
        | none =>
          simp [Project.index_file, Project.read_file, hfsr, hrec,
            DbState.create_record] at h
          obtain ⟨hg, hst, hb⟩ := h
          subst hst
          simp [Project.index_file, Project.read_file, hfsr, DbState.read_record,
            List.find?, ← hg]


/-- Witness for C4: indexing the already-indexed concrete file returns its
record unchanged without invoking the collaborator. -/
theorem index_file_idempotent_witness :
    Project.index_file (fun _ => ([], 0)) sampleState "a.csv"
      = Except.ok (some ⟨"a.csv", "csv", some sampleRecord⟩, sampleState, false) :=
  (index_file_idempotent (fun _ => ([], 0)) sampleState sampleState "a.csv"
      ⟨"a.csv", "csv", some sampleRecord⟩ ⟨"a.csv", "csv", none⟩ sampleRecord false).1
    (by decide) (by decide)

/-- Every entry the filesystem listing produces carries no error count yet. -/
theorem list_files_errorCount_none (fs : FsState) (item : IFileItem)
    (h : item ∈ fs.list_files) : item.errorCount = none := by
  unfold FsState.list_files at h
  obtain ⟨kv, hkv, rfl⟩ := List.mem_map.mp h
  rfl

/-- C9: Project.list_files is the filesystem listing joined with the record
store by path: each output entry is the corresponding listing entry with exactly
the row-error count of its record attached (and nothing else), entries without a
record or whose record has no error count staying unchanged. -/
theorem list_files_minimal_join (st : ProjectState) (i : Nat) :
    (Project.list_files st)[i]?
      = (st.fs.list_files)[i]?.map (fun item =>
          { item with errorCount := (st.db.read_record item.path).bind Record.errorCount }) := by
  unfold Project.list_files
  rw [List.getElem?_map]
  cases hi : (st.fs.list_files)[i]? with
  | none => rfl
  | some item =>
    have hmem : item ∈ st.fs.list_files := List.getElem?_mem hi
    have hnone : item.errorCount = none := list_files_errorCount_none st.fs item hmem
    simp only [Option.map]
    cases hr : st.db.read_record item.path with
    | none =>
      cases item with
      | mk ipath itype icount =>
        simp at hnone
        simp [hr, hnone]
    | some record =>
      cases hc : record.errorCount with
      | none =>
        cases item with
        | mk ipath itype icount =>
          simp at hnone
          simp [hr, hc, hnone]
      | some n => simp [hr, hc]

/-- Length of the URL-safe base64 encoding: four characters per three bytes,
with two or three characters for one or two trailing bytes. -/
theorem base64urlEncode_length : (bs : List Nat) →
    (base64urlEncode bs).length
      = bs.length / 3 * 4 + (if bs.length % 3 = 0 then 0 else bs.length % 3 + 1)
  | [] => by simp [base64urlEncode]
  | [b1] => by simp [base64urlEncode]
  | [b1, b2] => by simp [base64urlEncode]
  | b1 :: b2 :: b3 :: rest => by
    have ih := base64urlEncode_length rest
    simp only [base64urlEncode, List.length_cons, ih]
    split_ifs with h1 h2 h2 <;> omega

/-- Every character the URL-safe base64 alphabet yields is URL-safe. -/
theorem b64char_urlSafe (n : Nat) : urlSafeChar (b64char n) = true := by
  have hlt : n % 64 < 64 := Nat.mod_lt _ (by norm_num)
  have hall : ∀ k, k < 64 → urlSafeChar (b64urlAlphabet.getD k 'A') = true := by decide
  exact hall (n % 64) hlt

/-- Every character of a URL-safe base64 encoding is URL-safe. -/
theorem base64urlEncode_urlSafe : (bs : List Nat) → ∀ c ∈ base64urlEncode bs,
    urlSafeChar c = true
  | [] => by simp [base64urlEncode]
  | [b1] => by
    intro c hc
    simp [base64urlEncode] at hc
    rcases hc with rfl | rfl <;> exact b64char_urlSafe _
  | [b1, b2] => by
    intro c hc
    simp [base64urlEncode] at hc
    rcases hc with rfl | rfl | rfl <;> exact b64char_urlSafe _
  | b1 :: b2 :: b3 :: rest => by
    intro c hc
    simp only [base64urlEncode, List.mem_cons] at hc
    rcases hc with rfl | rfl | rfl | rfl | hc
    · exact b64char_urlSafe _
    · exact b64char_urlSafe _
    · exact b64char_urlSafe _
    · exact b64char_urlSafe _
    · exact base64urlEncode_urlSafe rest c hc

/-- A token generated from 16 random bytes has exactly 22 characters. -/
theorem token_urlsafe_length (entropy : List Nat) (h : entropy.length = 16) :
    (token_urlsafe entropy).length = 22 := by
  unfold token_urlsafe
  have hl := base64urlEncode_length entropy
  rw [h] at hl
  simpa [String.length] using hl

/-- C6 counterexample: the constructor accepts a caller-supplied 22-character
session made entirely of characters outside the URL-safe set, so the claim that
every non-root project has a session of 22 URL-safe characters is false at this
input. -/
theorem session_not_urlsafe_counterexample :
    Project.init (some bangSession) false [] = Except.ok (some bangSession) ∧
      urlSafeChar '!' = false ∧ '!' ∈ bangSession.data := by
  exact ⟨by decide, by decide, by decide⟩

/-- C6 amended: after construction a root project has no (nonempty) session and
rejects one; a non-root project has a session of exactly 22 characters, which is
additionally URL-safe and generated from the random bytes when the caller
supplies none; and construction fails for a non-root project given a nonempty
session whose length is not 22. -/
theorem session_identifier_rules (entropy : List Nat) (sArg : Option String)
    (s : String) :
    (truthy sArg = false → Project.init sArg true entropy = Except.ok sArg) ∧
    (truthy sArg = true → Project.init sArg true entropy = Except.error Err.assertionError) ∧
    (entropy.length = 16 → truthy sArg = false →
      Project.init sArg false entropy = Except.ok (some (token_urlsafe entropy)) ∧
      (token_urlsafe entropy).length = 22 ∧
      (∀ c ∈ (token_urlsafe entropy).data, urlSafeChar c = true)) ∧
    (sArg = some s → truthy sArg = true → s.length = 22 →
      Project.init sArg false entropy = Except.ok (some s)) ∧
    (sArg = some s → truthy sArg = true → s.length ≠ 22 →
      Project.init sArg false entropy = Except.error Err.assertionError) := by
  refine ⟨?_, ?_, ?_, ?_, ?_⟩
  · intro ht
    simp [Project.init, ht]
  · intro ht
    simp [Project.init, ht]
  · intro hlen ht
    have h22 : (token_urlsafe entropy).length = 22 := token_urlsafe_length entropy hlen
    refine ⟨?_, h22, ?_⟩
    · simp [Project.init, ht, h22]
    · intro c hc
      exact base64urlEncode_urlSafe entropy c hc
  · intro hs ht hl
    subst hs
    simp [Project.init, ht, hl]
  · intro hs ht hl
    subst hs
    simp [Project.init, ht, hl]

/-- Witness for the C6 amended theorem: concrete root and non-root
constructions. -/
theorem session_identifier_rules_witness :
    Project.init none true [] = Except.ok none ∧
      Project.init none false (List.range 16)
        = Except.ok (some (token_urlsafe (List.range 16))) ∧
      (token_urlsafe (List.range 16)).length = 22 ∧
      Project.init (some "short") false [] = Except.error Err.assertionError :=
  ⟨(session_identifier_rules [] none "x").1 (by decide),
    ((session_identifier_rules (List.range 16) none "x").2.2.1 (by decide) (by decide)).1,
    ((session_identifier_rules (List.range 16) none "x").2.2.1 (by decide) (by decide)).2.1,
    (session_identifier_rules [] (some "short") "short").2.2.2.2 rfl (by decide) (by decide)⟩

/-- The final segment of a split never contains the separator. -/
theorem splitChar_getLastD_not_mem (sep : Char) : (l : List Char) →
    sep ∉ (splitChar sep l).getLastD []
  | [] => by simp [splitChar]
  | c :: rest => by
    have ih := splitChar_getLastD_not_mem sep rest
    by_cases hc : (c == sep) = true
    · have hs : splitChar sep (c :: rest) = [] :: splitChar sep rest := by
        simp [splitChar, hc]
      rw [hs, List.getLastD_cons]
      exact ih
    · have hcn : ¬ c = sep := by simpa using hc
      cases hr : splitChar sep rest with
      | nil =>
        have hs : splitChar sep (c :: rest) = [[c]] := by
          simp [splitChar, hc, hr]
        rw [hs, List.getLastD_cons]
        simp
        exact fun h => hcn h.symm
      | cons s ss =>
        have hs : splitChar sep (c :: rest) = (c :: s) :: ss := by
          simp [splitChar, hc, hr]
        rw [hr] at ih
        rw [hs]
        cases ss with
        | nil =>
          rw [List.getLastD_cons] at ih ⊢
          simp at ih ⊢
          exact ⟨fun h => hcn h.symm, ih⟩
        | cons s2 ss2 =>
          rw [List.getLastD_cons] at ih ⊢
          rw [List.getLastD_eq_getLast?] at ih ⊢
          have hsome : ((s2 :: ss2).getLast?).isSome := by
            rw [List.getLast?_isSome]
            simp
          obtain ⟨x, hx⟩ := Option.isSome_iff_exists.mp hsome
          rw [hx] at ih ⊢
          simpa using ih

/-- Splitting a name that ends in the csv extension at its last dot gives back
the stem and that extension. -/
theorem splitExtChars_csv (s : List Char) :
    splitExtChars (s ++ ('.' :: 'c' :: 's' :: 'v' :: []))
      = (s, '.' :: 'c' :: 's' :: 'v' :: []) := by
  have hrev : (s ++ ('.' :: 'c' :: 's' :: 'v' :: [])).reverse
      = 'v' :: 's' :: 'c' :: '.' :: s.reverse := by
    simp
  have htake : ('v' :: 's' :: 'c' :: '.' :: s.reverse).takeWhile (fun c => !(c == '.'))
      = 'v' :: 's' :: 'c' :: [] := by
    rw [List.takeWhile_cons_of_pos (by decide), List.takeWhile_cons_of_pos (by decide),
      List.takeWhile_cons_of_pos (by decide), List.takeWhile_cons_of_neg (by decide)]
  unfold splitExtChars
  simp only [hrev, htake]
  rw [if_neg (by simp)]
  simp

/-- The numeric disambiguation candidate of a csv path still ends in csv. -/
theorem dedupCandidate_endsCsv (c : FPath) (n : Nat) (h : EndsCsv c) :
    EndsCsv (dedupCandidate c n) := by
  obtain ⟨s, hs⟩ := h
  unfold dedupCandidate
  rw [hs, splitExtChars_csv]
  refine ⟨s ++ (Nat.repr (n + 2)).data, ?_⟩
  show s ++ (Nat.repr (n + 2)).data ++ ('.' :: 'c' :: 's' :: 'v' :: [])
      = s ++ (Nat.repr (n + 2)).data ++ ('.' :: 'c' :: 's' :: 'v' :: [])
  rfl

/-- Disambiguation preserves the csv suffix of a target path. -/
theorem dedupPath_endsCsv (fs : FsState) (c : FPath) (h : EndsCsv c) :
    EndsCsv (fs.dedupPath c) := by
  unfold FsState.dedupPath
  split_ifs with ht
  · cases hf : (List.range (fs.files.length + 1)).find?
        (fun n => !(fs.taken (dedupCandidate c n))) with
    | none => exact h
    | some n => exact dedupCandidate_endsCsv c n h
  · exact h

/-- Qualifying a csv name with a folder preserves the csv suffix. -/
theorem joinFolder_endsCsv (folder : Option String) (name : String)
    (h : EndsCsv name) : EndsCsv (joinFolder folder name) := by
  obtain ⟨s, hs⟩ := h
  cases folder with
  | none => exact ⟨s, hs⟩
  | some f =>
    refine ⟨f.data ++ '/' :: s, ?_⟩
    show f.data ++ '/' :: [] ++ name.data = f.data ++ '/' :: s ++ ('.' :: 'c' :: 's' :: 'v' :: [])
    rw [hs]
    simp

/-- The name Project.create_file computes never contains a separator, so the
filesystem accepts it as a bare filename. -/
theorem create_file_name_no_slash (p : FPath) :
    FsState.is_filename (create_file_name p) = true := by
  have hseg : '/' ∉ finalSegment p := splitChar_getLastD_not_mem '/' p.data
  have hstr : '/' ∉ strippedSegment p := by
    unfold strippedSegment
    split_ifs with h
    · exact fun hmem => hseg (List.takeWhile_subset _ hmem)
    · exact hseg
  unfold FsState.is_filename create_file_name
  split_ifs with h
  · simpa using hstr
  · have hap : '/' ∉ strippedSegment p ++ ('.' :: 'c' :: 's' :: 'v' :: []) := by
      simp [hstr]
    simpa using hap

/-- C8: whenever the final segment of the requested name has no dot, the path
Project.create_file stores the file under ends in the default .csv extension;
and a name whose query-stripped final segment already has a dot is used
unaltered, with no extension appended. -/
theorem create_file_default_extension (st : ProjectState) (p : FPath)
    (content : Bytes) (folder : Option String) :
    ((finalSegment p).contains '.' = false →
      resultEndsCsv (Project.create_file st p content folder)) ∧
    ((strippedSegment p).contains '.' = true →
      create_file_name p = String.mk (strippedSegment p)) := by
  constructor
  · intro h
    have hmem : '.' ∉ finalSegment p := by
      simp at h
      exact h
    have hstr : ('.' : Char) ∉ strippedSegment p := by
      unfold strippedSegment
      split_ifs with hq
      · exact fun hm => hmem (List.takeWhile_subset _ hm)
      · exact hmem
    have hnc : (strippedSegment p).contains '.' = false := by
      simp [hstr]
    have hname : create_file_name p
        = String.mk (strippedSegment p ++ ('.' :: 'c' :: 's' :: 'v' :: [])) := by
      unfold create_file_name
      rw [if_neg (by simp [hstr])]
    have hcsv : EndsCsv (create_file_name p) := ⟨strippedSegment p, by rw [hname]⟩
    have hfn := create_file_name_no_slash p
    unfold Project.create_file FsState.create_file
    rw [hfn]
    show resultEndsCsv (Except.ok _)
    exact dedupPath_endsCsv _ _ (joinFolder_endsCsv folder _ hcsv)
  · intro h
    unfold create_file_name
    rw [if_pos h]

/-- Witness for C8: creating a concrete file named report with no extension
succeeds and stores it under a path ending in .csv. -/
theorem create_file_default_extension_witness :
    (finalSegment "report").contains '.' = false ∧
      resultEndsCsv (Project.create_file emptyState "report" [104] none) :=
  ⟨by decide,
    (create_file_default_extension emptyState "report" [104] none).1 (by decide)⟩

end FrictionlessProj
